import Mathlib

set_option exponentiation.threshold 4000
set_option maxRecDepth 8000

/- Shallow embedding of the two core subsystems of zepctl: the search-filter
   mini-language (internal/cli/graph.go) and the task-wait polling loop
   (internal/cli/task.go).  Strings are modelled at the character level; every
   string the parsers inspect structurally is ASCII, where Go bytes and
   characters coincide. -/

/-- Combined model of Go strings.Contains / strings.SplitN(s, pat, 2): returns
some (pre, suf) where pre is the text before the first occurrence of pat in s
and suf the text after that occurrence, or none when pat does not occur. -/
def breakSub (pat : List Char) : List Char → Option (List Char × List Char)
  | [] => if pat.isPrefixOf ([] : List Char) then some ([], []) else none
  | c :: cs =>
    if pat.isPrefixOf (c :: cs) then some ([], (c :: cs).drop pat.length)
    else
      match breakSub pat cs with
      | some (pre, suf) => some (c :: pre, suf)
      | none => none

/-- Go strings.SplitN(s, sep, n) for n ≥ 1; the CLI only uses n = 3 with the
single-character separator ":". -/
def goSplitN (sep : List Char) : Nat → List Char → List (List Char)
  | 0, _ => []
  | 1, s => [s]
  | n + 2, s =>
    match breakSub sep s with
    | none => [s]
    | some (pre, suf) => pre :: goSplitN sep (n + 1) suf

/-- Go strconv lower(c): c | 0x20, mapping ASCII upper case to lower case. -/
def goLower (c : Char) : Char := Char.ofNat (c.toNat ||| 32)

/-- Digit test of the strconv readFloat mantissa loop for the current base. -/
def isMantDigit (hex : Bool) (c : Char) : Bool :=
  c.isDigit || (hex && ('a' ≤ goLower c && goLower c ≤ 'f'))

/-- Numeric value of a digit or hex digit as consumed by strconv readFloat. -/
def digitVal (c : Char) : Nat :=
  if c.isDigit then c.toNat - 48 else (goLower c).toNat - 87

/-- The mantissa loop of strconv readFloat: consumes digits, underscores and
at most one decimal point, accumulating the exact mantissa integer and the
number of digits after the dot; returns the unconsumed rest, whether a digit
was seen, the mantissa, and that count.  Arguments after the input: sawdot,
sawdigits, mantissa so far, digits after the dot so far. -/
def mantScanVal (hex : Bool) : List Char → Bool → Bool → Nat → Nat →
    List Char × Bool × Nat × Nat
  | [], _, sawdigits, m, ndAfter => ([], sawdigits, m, ndAfter)
  | c :: cs, sawdot, sawdigits, m, ndAfter =>
    if c = '_' then mantScanVal hex cs sawdot sawdigits m ndAfter
    else if c = '.' then
      if sawdot then (c :: cs, sawdigits, m, ndAfter)
      else mantScanVal hex cs true sawdigits m ndAfter
    else if isMantDigit hex c then
      mantScanVal hex cs sawdot true (m * (if hex then 16 else 10) + digitVal c)
        (if sawdot then ndAfter + 1 else ndAfter)
    else (c :: cs, sawdigits, m, ndAfter)

/-- The exponent-digit loop of strconv readFloat: consumes decimal digits and
underscores, accumulating the exponent value, which saturates at 10000 as in
the Go source; returns the rest and the value. -/
def expScanVal : List Char → Nat → List Char × Nat
  | [], e => ([], e)
  | c :: cs, e =>
    if c.isDigit then
      expScanVal cs (if e < 10000 then e * 10 + (c.toNat - 48) else e)
    else if c = '_' then expScanVal cs e
    else (c :: cs, e)

/-- The scanning loop of strconv underscoreOK; saw is the marker for the last
character class seen, as in the Go source. -/
def underscoreScan (hex : Bool) : List Char → Char → Bool
  | [], saw => saw != '_'
  | c :: cs, saw =>
    if c = '_' then
      if saw != '0' then false else underscoreScan hex cs '_'
    else if c.isDigit || (hex && ('a' ≤ goLower c && goLower c ≤ 'f')) then
      underscoreScan hex cs '0'
    else if saw == '_' then false
    else underscoreScan hex cs '!'

/-- Go strconv underscoreOK: every underscore must separate successive digits
or follow a hex base prefix. -/
def underscoreOK (s : List Char) : Bool :=
  let s1 : List Char :=
    match s with
    | '+' :: r => r
    | '-' :: r => r
    | r => r
  match s1 with
  | '0' :: x :: r =>
    if goLower x = 'x' then underscoreScan true r '0' else underscoreScan false s1 '^'
  | _ => underscoreScan false s1 '^'

/-- Go strconv readFloat consuming the whole string: optional sign, optional
hex prefix (which switches the digit set and makes a p-exponent mandatory),
mantissa with at most one dot and at least one digit, optional (for hex:
required) exponent with at least one leading digit.  Returns none when the
syntax is rejected; on success some (hex, mantissa, exp), where the exact
magnitude of the literal is mantissa * 10 ^ exp for a decimal literal and
mantissa * 2 ^ exp for a hex literal (the sign does not affect the range
check). -/
def readFloatVal (s : List Char) : Option (Bool × Nat × Int) :=
  let s1 : List Char :=
    match s with
    | '+' :: r => r
    | '-' :: r => r
    | r => r
  let hs : Bool × List Char :=
    match s1 with
    | '0' :: x :: c :: r => if goLower x = 'x' then (true, c :: r) else (false, s1)
    | _ => (false, s1)
  let p := mantScanVal hs.1 hs.2 false false 0 0
  if !p.2.1 then none
  else
    let m := p.2.2.1
    let ndAfter := p.2.2.2
    let dexp : Int := if hs.1 then -(4 * (ndAfter : Int)) else -(ndAfter : Int)
    match p.1 with
    | [] => if hs.1 then none else some (false, m, dexp)
    | c :: cs =>
      if goLower c = (if hs.1 then 'p' else 'e') then
        let es : Int × List Char :=
          match cs with
          | '+' :: r => (1, r)
          | '-' :: r => (-1, r)
          | r => (1, r)
        match es.2 with
        | [] => none
        | d :: _ =>
          if d.isDigit then
            let q := expScanVal es.2 0
            if q.1.isEmpty then some (hs.1, m, es.1 * (q.2 : Int) + dexp)
            else none
          else none
      else none

/-- Go strconv special(s) consuming the whole string: the case-insensitive
literals inf and infinity with optional sign, and unsigned nan. -/
def specialFloat (s : List Char) : Bool :=
  let l := s.map goLower
  l = "inf".data || l = "+inf".data || l = "-inf".data ||
  l = "infinity".data || l = "+infinity".data || l = "-infinity".data ||
  l = "nan".data

/-- The ErrRange overflow test of strconv.ParseFloat at 64 bits: the exact
magnitude mantissa * base ^ exp rounds, to nearest with ties to even, to at
least 2 ^ 1024 exactly when it reaches the threshold 2 ^ 1024 - 2 ^ 970, the
halfway point above the largest finite float64 (a tie there rounds up to
infinity); underflow towards zero carries no error. -/
def floatOverflowRange (base mantissa : Nat) (exp : Int) : Bool :=
  if mantissa = 0 then false
  else if 0 ≤ exp then
    decide (2 ^ 1024 - 2 ^ 970 ≤ mantissa * base ^ exp.toNat)
  else
    decide ((2 ^ 1024 - 2 ^ 970) * base ^ (-exp).toNat ≤ mantissa)

/-- Models json.Number(s).Float64(), that is strconv.ParseFloat(s, 64),
succeeding with a nil error: a special inf/nan literal, or readFloat accepting
the whole string with every underscore legally placed and the value within
float64 range (an overflowing literal such as 1e999 makes ParseFloat return
the value with ErrRange, so the caller falls through to the string branch).
The rounded IEEE-754 value itself stays outside the embedding. -/
def goParseFloatAccepts (s : List Char) : Bool :=
  specialFloat s ||
    (match readFloatVal s with
     | none => false
     | some (hex, m, e) =>
       (!(s.contains '_') || underscoreOK s) &&
       !floatOverflowRange (if hex then 2 else 10) m e)

/-- Models json.Number(s).Int64(), that is strconv.ParseInt(s, 10, 64):
optional single sign, then one or more decimal digits, value within int64
(out-of-range parses fail with ErrRange, so the caller falls through). -/
def parseInt64 (s : String) : Option Int :=
  let p : Bool × List Char :=
    match s.data with
    | '+' :: r => (false, r)
    | '-' :: r => (true, r)
    | r => (false, r)
  if p.2.isEmpty then none
  else if p.2.all Char.isDigit then
    let n : Nat := p.2.foldl (fun a c => a * 10 + (c.toNat - 48)) 0
    if p.1 then
      if n ≤ 2 ^ 63 then some (-(n : Int)) else none
    else
      if n ≤ 2 ^ 63 - 1 then some (n : Int) else none
  else none

/-- The dynamic value the parser stores in PropertyFilter.PropertyValue.  In
Go the field is an empty-interface value; its zero value nil (the null
constructor here) is what both an unset field and an inferred null produce.
The float constructor records the accepted literal token; the IEEE-754 value
ParseFloat derives from it is outside the embedding. -/
inductive GoValue where
  | boolean (b : Bool)
  | null
  | int (i : Int)
  | float (tok : String)
  | str (s : String)
  deriving DecidableEq, Repr

/-- The value type inference of graph.go parsePropertyFilter (the if/else
chain on valueStr at lines 643-657). -/
def inferValue (valueStr : String) : GoValue :=
  if valueStr = "true" then GoValue.boolean true
  else if valueStr = "false" then GoValue.boolean false
  else if valueStr = "null" ∨ valueStr = "" then GoValue.null
  else
    match parseInt64 valueStr with
    | some i => GoValue.int i
    | none =>
      if goParseFloatAccepts valueStr.data then GoValue.float valueStr
      else GoValue.str valueStr

/-- The zep-go comparison-operator enumeration used by the parsers. -/
inductive ComparisonOperator where
  | equals
  | notEquals
  | greaterThan
  | lessThan
  | greaterThanEqual
  | lessThanEqual
  | isNull
  | isNotNull
  deriving DecidableEq, Repr

/-- graph.go parseComparisonOperator (lines 665-686). -/
def parseComparisonOperator (op : String) : Except String ComparisonOperator :=
  if op = "=" ∨ op = "==" then Except.ok ComparisonOperator.equals
  else if op = "<>" ∨ op = "!=" then Except.ok ComparisonOperator.notEquals
  else if op = ">" then Except.ok ComparisonOperator.greaterThan
  else if op = "<" then Except.ok ComparisonOperator.lessThan
  else if op = ">=" then Except.ok ComparisonOperator.greaterThanEqual
  else if op = "<=" then Except.ok ComparisonOperator.lessThanEqual
  else if op = "IS NULL" then Except.ok ComparisonOperator.isNull
  else if op = "IS NOT NULL" then Except.ok ComparisonOperator.isNotNull
  else Except.error ("unknown operator: " ++ op)

/-- The zep-go PropertyFilter struct as the CLI populates it; propertyValue
defaults to null, the Go zero value of the interface field. -/
structure PropertyFilter where
  propertyName : String
  comparisonOperator : ComparisonOperator
  propertyValue : GoValue := GoValue.null
  deriving DecidableEq, Repr

/-- Go fmt %q applied to a filter string (escaping of special characters
inside the string is not modelled; the repository never inspects these
messages). -/
def goQuote (s : String) : String := "\"" ++ s ++ "\""

/-- The marker substring of the IS NOT NULL short-circuit. -/
def isNotNullPat : List Char := ":IS NOT NULL".data

/-- The marker substring of the IS NULL short-circuit. -/
def isNullPat : List Char := ":IS NULL".data

/-- graph.go parsePropertyFilter (lines 603-663). -/
def parsePropertyFilter (filter : String) : Except String PropertyFilter :=
  match breakSub isNotNullPat filter.data with
  | some (pre, _) =>
    if pre = [] then
      Except.error ("invalid property filter format: " ++ goQuote filter)
    else
      Except.ok { propertyName := String.mk pre,
                  comparisonOperator := ComparisonOperator.isNotNull }
  | none =>
    match breakSub isNullPat filter.data with
    | some (pre, _) =>
      if pre = [] then
        Except.error ("invalid property filter format: " ++ goQuote filter)
      else
        Except.ok { propertyName := String.mk pre,
                    comparisonOperator := ComparisonOperator.isNull }
    | none =>
      match goSplitN [':'] 3 filter.data with
      | [p0, p1, p2] =>
        match parseComparisonOperator (String.mk p1) with
        | Except.error e =>
          Except.error ("invalid operator in property filter " ++ goQuote filter ++ ": " ++ e)
        | Except.ok op =>
          Except.ok { propertyName := String.mk p0,
                      comparisonOperator := op,
                      propertyValue := inferValue (String.mk p2) }
      | _ =>
        Except.error ("invalid property filter format: " ++ goQuote filter ++
          " (expected property_name:operator:value)")

/-- A single zep-go DateFilter as the CLI builds it. -/
structure DateFilter where
  comparisonOperator : ComparisonOperator
  date : Option String
  deriving DecidableEq, Repr

/-- The four date-filter fields of zep-go SearchFilters: per field an ordered
sequence of OR-groups, each an ordered sequence of AND-ed DateFilters. -/
structure SearchFilters where
  createdAt : List (List DateFilter) := []
  validAt : List (List DateFilter) := []
  invalidAt : List (List DateFilter) := []
  expiredAt : List (List DateFilter) := []
  deriving DecidableEq, Repr

/-- graph.go addDateFilter (lines 736-758).  In Go the SearchFilters value is
mutated through a pointer; here the new value is returned together with an
optional error.  An unknown field returns the error before appending, leaving
the filters untouched. -/
def addDateFilter (field : String) (op : ComparisonOperator) (date : Option String)
    (sf : SearchFilters) : SearchFilters × Option String :=
  if field = "created_at" then
    ({ sf with createdAt := sf.createdAt ++ [[{ comparisonOperator := op, date := date }]] }, none)
  else if field = "valid_at" then
    ({ sf with validAt := sf.validAt ++ [[{ comparisonOperator := op, date := date }]] }, none)
  else if field = "invalid_at" then
    ({ sf with invalidAt := sf.invalidAt ++ [[{ comparisonOperator := op, date := date }]] }, none)
  else if field = "expired_at" then
    ({ sf with expiredAt := sf.expiredAt ++ [[{ comparisonOperator := op, date := date }]] }, none)
  else
    (sf, some ("unknown date field: " ++ field ++
      " (valid: created_at, valid_at, invalid_at, expired_at)"))

/-- graph.go parseDateFilter (lines 700-734). -/
def parseDateFilter (filter : String) (sf : SearchFilters) : SearchFilters × Option String :=
  match breakSub isNotNullPat filter.data with
  | some (pre, _) =>
    if pre = [] then (sf, some ("invalid date filter format: " ++ goQuote filter))
    else addDateFilter (String.mk pre) ComparisonOperator.isNotNull none sf
  | none =>
    match breakSub isNullPat filter.data with
    | some (pre, _) =>
      if pre = [] then (sf, some ("invalid date filter format: " ++ goQuote filter))
      else addDateFilter (String.mk pre) ComparisonOperator.isNull none sf
    | none =>
      match goSplitN [':'] 3 filter.data with
      | [p0, p1, p2] =>
        match parseComparisonOperator (String.mk p1) with
        | Except.error e =>
          (sf, some ("invalid operator in date filter " ++ goQuote filter ++ ": " ++ e))
        | Except.ok op => addDateFilter (String.mk p0) op (some (String.mk p2)) sf
      | _ =>
        (sf, some ("invalid date filter format: " ++ goQuote filter ++
          " (expected field:operator:date)"))

/-- graph.go parseDateFilters (lines 691-698): sequential, stops at the first
failure, and the mutations already performed stay in place. -/
def parseDateFilters : List String → SearchFilters → SearchFilters × Option String
  | [], sf => (sf, none)
  | f :: fs, sf =>
    match parseDateFilter f sf with
    | (sf2, some e) => (sf2, some e)
    | (sf2, none) => parseDateFilters fs sf2

/-- A snapshot of the task record as the wait loop reads it: task.Status and
task.Error.Message, each possibly absent. -/
structure TaskView where
  status : Option String
  errorMessage : Option String
  deriving DecidableEq, Repr

/-- task.go lines 116-119: the status string defaults to the empty string when
the task record carries none. -/
def statusOf (t : TaskView) : String := t.status.getD ""

/-- The loop body of task.go waitForTask (lines 101-135) on a discrete
timeline.  Durations are in nanoseconds (Go time.Duration); fetch k is the
result of the status fetch on the k-th ticker tick, which fires at time
k * pollInterval.  The select picks the context deadline over the tick exactly
when the tick time has reached the deadline, so tick k leads to a fetch iff
k * pollInterval < timeout; fetches are treated as instantaneous.  The fuel
argument only forces termination: waitForTask supplies enough fuel that the
zero case is unreachable whenever pollInterval is positive (Go NewTicker
rejects a non-positive interval), and the zero case returns the same timeout
error the deadline branch produces. -/
def waitForTaskAux (fetch : Nat → Except String TaskView) (taskID : String)
    (timeout pollInterval : Nat) : Nat → Nat → Except String Unit
  | 0, _ => Except.error ("timeout waiting for task " ++ taskID)
  | fuel + 1, k =>
    if timeout ≤ k * pollInterval then
      Except.error ("timeout waiting for task " ++ taskID)
    else
      match fetch k with
      | Except.error e => Except.error ("getting task: " ++ e)
      | Except.ok task =>
        if statusOf task = "completed" then Except.ok ()
        else if statusOf task = "failed" then
          Except.error ("task " ++ taskID ++ " failed: " ++
            task.errorMessage.getD "unknown error")
        else waitForTaskAux fetch taskID timeout pollInterval fuel (k + 1)

/-- task.go waitForTask: poll the status accessor once per tick until a
terminal status, a fetch error, or the deadline. -/
def waitForTask (fetch : Nat → Except String TaskView) (taskID : String)
    (timeout pollInterval : Nat) : Except String Unit :=
  waitForTaskAux fetch taskID timeout pollInterval timeout 1

/-- Bridge between the executable prefix test and the prefix relation. -/
theorem isPrefixOf_eq_true_iff {l1 l2 : List Char} :
    l1.isPrefixOf l2 = true ↔ l1 <+: l2 := List.isPrefixOf_iff_prefix

/-- A prefix shorter than the left summand ignores the right summand. -/
theorem prefix_append_of_le {α : Type} {pat A : List α} (h : pat.length ≤ A.length)
    (b : List α) : pat <+: A ++ b ↔ pat <+: A := by
  constructor
  · intro hp
    exact List.prefix_of_prefix_length_le hp (List.prefix_append A b) h
  · intro hp
    exact hp.trans (List.prefix_append A b)

/-- When the pattern is a prefix, breakSub splits it off at position zero. -/
theorem breakSub_of_isPrefixOf {pat s : List Char} (h : pat.isPrefixOf s = true) :
    breakSub pat s = some ([], s.drop pat.length) := by
  cases s with
  | nil => simp [breakSub, h]
  | cons c cs => simp [breakSub, h]

/-- breakSub only answers with an actual decomposition of its input. -/
theorem breakSub_eq_parts {pat : List Char} :
    ∀ {s pre suf : List Char}, breakSub pat s = some (pre, suf) → s = pre ++ pat ++ suf := by
  intro s
  induction s with
  | nil =>
    intro pre suf h
    simp only [breakSub] at h
    split at h
    · next hp =>
      have hpat : pat = [] := List.prefix_nil.mp (isPrefixOf_eq_true_iff.mp hp)
      simp only [Option.some.injEq, Prod.mk.injEq] at h
      simp [← h.1, ← h.2, hpat]
    · exact absurd h (by simp)
  | cons c cs ih =>
    intro pre suf h
    simp only [breakSub] at h
    split at h
    · next hp =>
      simp only [Option.some.injEq, Prod.mk.injEq] at h
      obtain ⟨h1, h2⟩ := h
      have hpre : pat <+: c :: cs := isPrefixOf_eq_true_iff.mp hp
      rw [List.prefix_iff_eq_take] at hpre
      rw [← h1, ← h2, List.nil_append]
      conv_lhs => rw [← List.take_append_drop pat.length (c :: cs)]
      rw [← hpre]
    · next hp =>
      revert h
      split
      · next pre' suf' hb =>
        intro h
        simp only [Option.some.injEq, Prod.mk.injEq] at h
        obtain ⟨h1, h2⟩ := h
        rw [← h1, ← h2]
        simp [ih hb]
      · intro h
        exact absurd h (by simp)

/-- Any explicit decomposition makes breakSub succeed. -/
theorem breakSub_isSome {pat : List Char} :
    ∀ (a b : List Char), (breakSub pat (a ++ pat ++ b)).isSome := by
  intro a
  induction a with
  | nil =>
    intro b
    rw [List.nil_append]
    rw [breakSub_of_isPrefixOf (isPrefixOf_eq_true_iff.mpr (List.prefix_append pat b))]
    simp
  | cons c a' ih =>
    intro b
    show (breakSub pat (c :: (a' ++ pat ++ b))).isSome
    simp only [breakSub]
    split
    · simp
    · have := ih b
      revert this
      cases breakSub pat (a' ++ pat ++ b) with
      | none => simp
      | some pr => cases pr; simp

/-- The text before the first occurrence does not move when the text after the
occurrence changes: breakSub found the first occurrence, and the leading
characters together with the pattern itself are unchanged. -/
theorem breakSub_first {pat : List Char} :
    ∀ {s pre suf : List Char}, breakSub pat s = some (pre, suf) →
      ∀ (b : List Char), breakSub pat (pre ++ pat ++ b) = some (pre, b) := by
  intro s
  induction s with
  | nil =>
    intro pre suf h b
    simp only [breakSub] at h
    split at h
    · next hp =>
      have hpat : pat = [] := List.prefix_nil.mp (isPrefixOf_eq_true_iff.mp hp)
      simp only [Option.some.injEq, Prod.mk.injEq] at h
      rw [← h.1, hpat]
      rw [List.nil_append, List.nil_append]
      rw [breakSub_of_isPrefixOf (by simp [isPrefixOf_eq_true_iff])]
      simp
    · exact absurd h (by simp)
  | cons c cs ih =>
    intro pre suf h b
    simp only [breakSub] at h
    split at h
    · next hp =>
      simp only [Option.some.injEq, Prod.mk.injEq] at h
      rw [← h.1, List.nil_append]
      rw [breakSub_of_isPrefixOf (isPrefixOf_eq_true_iff.mpr (List.prefix_append pat b))]
      rw [List.drop_left]
    · next hp =>
      revert h
      split
      · next pre' suf' hb =>
        intro h
        simp only [Option.some.injEq, Prod.mk.injEq] at h
        obtain ⟨h1, h2⟩ := h
        have hcs : cs = pre' ++ pat ++ suf' := breakSub_eq_parts hb
        rw [← h1]
        show breakSub pat ((c :: pre') ++ pat ++ b) = some (c :: pre', b)
        have hlen : pat.length ≤ (c :: (pre' ++ pat)).length := by
          simp [List.length_append]
          omega
        have hnp : pat.isPrefixOf (c :: (pre' ++ pat ++ b)) = false := by
          apply Bool.eq_false_iff.mpr
          intro hcontra
          have hpre2 : pat <+: (c :: (pre' ++ pat)) ++ b := by
            have := isPrefixOf_eq_true_iff.mp hcontra
            simpa [List.append_assoc] using this
          rw [prefix_append_of_le hlen] at hpre2
          have hpre3 : pat <+: (c :: (pre' ++ pat)) ++ suf' :=
            hpre2.trans (List.prefix_append _ suf')
          have : pat.isPrefixOf (c :: cs) = true := by
            rw [isPrefixOf_eq_true_iff, hcs]
            simpa [List.append_assoc] using hpre3
          simp [this] at hp
        show breakSub pat (c :: (pre' ++ pat ++ b)) = some (c :: pre', b)
        simp only [breakSub, hnp]
        simp only [Bool.false_eq_true, if_false]
        rw [ih hb b]
      · intro h
        exact absurd h (by simp)

/-- Inversion for single-character splitting: the part before the separator
does not itself contain the separator. -/
theorem breakSub_single_inv {ch : Char} :
    ∀ {s pre suf : List Char}, breakSub [ch] s = some (pre, suf) →
      s = pre ++ ch :: suf ∧ ch ∉ pre := by
  intro s
  induction s with
  | nil =>
    intro pre suf h
    simp [breakSub] at h
  | cons c cs ih =>
    intro pre suf h
    simp only [breakSub] at h
    by_cases hc : ch = c
    · subst hc
      rw [if_pos (by simp [isPrefixOf_eq_true_iff])] at h
      simp only [Option.some.injEq, Prod.mk.injEq] at h
      obtain ⟨h1, h2⟩ := h
      subst h1
      subst h2
      simp
    · rw [if_neg (by
        simp only [isPrefixOf_eq_true_iff]
        intro hp
        obtain ⟨t, ht⟩ := hp
        simp at ht
        exact hc ht.1)] at h
      revert h
      split
      · next pre' suf' hb =>
        intro h
        simp only [Option.some.injEq, Prod.mk.injEq] at h
        obtain ⟨h1, h2⟩ := h
        obtain ⟨hcs, hnm⟩ := ih hb
        subst h2
        rw [← h1, hcs]
        refine ⟨by simp, ?_⟩
        intro hmem
        rcases List.mem_cons.mp hmem with h | h
        · exact hc h
        · exact hnm h
      · intro h
        exact absurd h (by simp)

/-- Constructive single-character splitting at the first separator. -/
theorem breakSub_single_of_not_mem {ch : Char} :
    ∀ {a : List Char}, ch ∉ a → ∀ (r : List Char),
      breakSub [ch] (a ++ ch :: r) = some (a, r) := by
  intro a
  induction a with
  | nil =>
    intro _ r
    rw [List.nil_append]
    rw [breakSub_of_isPrefixOf (by simp [isPrefixOf_eq_true_iff])]
    simp
  | cons c a' ih =>
    intro hnm r
    have hc : ch ≠ c := fun h => hnm (by simp [h])
    show breakSub [ch] (c :: (a' ++ ch :: r)) = some (c :: a', r)
    simp only [breakSub]
    rw [if_neg (by
      simp only [isPrefixOf_eq_true_iff]
      intro hp
      obtain ⟨t, ht⟩ := hp
      simp at ht
      exact hc ht.1)]
    rw [ih (fun h => hnm (by simp [h])) r]

/-- The separator-free case: breakSub finds nothing. -/
theorem breakSub_single_none {ch : Char} :
    ∀ {s : List Char}, ch ∉ s → breakSub [ch] s = none := by
  intro s
  induction s with
  | nil => intro _; rfl
  | cons c cs ih =>
    intro hnm
    have hc : ch ≠ c := fun h => hnm (by simp [h])
    simp only [breakSub]
    rw [if_neg (by
      simp only [isPrefixOf_eq_true_iff]
      intro hp
      obtain ⟨t, ht⟩ := hp
      simp at ht
      exact hc ht.1)]
    rw [ih (fun h => hnm (by simp [h]))]

/-- Inversion of the three-way colon split used by both filter parsers. -/
theorem goSplitN_three_inv {sep : Char} {s p0 p1 p2 : List Char}
    (h : goSplitN [sep] 3 s = [p0, p1, p2]) :
    s = p0 ++ sep :: (p1 ++ sep :: p2) ∧ sep ∉ p0 ∧ sep ∉ p1 := by
  simp only [goSplitN] at h
  revert h
  split
  · intro h
    exact absurd h (by simp)
  · next pre suf hb =>
    split
    · intro h
      exact absurd h (by simp)
    · next pre2 suf2 hb2 =>
      intro h
      simp only [List.cons.injEq, and_true] at h
      obtain ⟨h0, h1, h2⟩ := h
      subst h0
      subst h1
      subst h2
      obtain ⟨hs, hn0⟩ := breakSub_single_inv hb
      obtain ⟨hs2, hn1⟩ := breakSub_single_inv hb2
      exact ⟨by rw [hs, hs2], hn0, hn1⟩

/-- Constructive three-way split on explicit separator-free first parts. -/
theorem goSplitN_three_of {sep : Char} {a b : List Char} (ha : sep ∉ a) (hb : sep ∉ b)
    (c : List Char) : goSplitN [sep] 3 (a ++ sep :: (b ++ sep :: c)) = [a, b, c] := by
  have h1 : breakSub [sep] (a ++ sep :: (b ++ sep :: c)) = some (a, b ++ sep :: c) :=
    breakSub_single_of_not_mem ha _
  have h2 : breakSub [sep] (b ++ sep :: c) = some (b, c) :=
    breakSub_single_of_not_mem hb _
  simp [goSplitN, h1, h2]

/-- Only the literal token IS NULL maps to the IsNull operator. -/
theorem parseComparisonOperator_isNull_inv {t : String}
    (h : parseComparisonOperator t = Except.ok ComparisonOperator.isNull) :
    t = "IS NULL" := by
  unfold parseComparisonOperator at h
  split_ifs at h <;> simp_all

/-- Only the literal token IS NOT NULL maps to the IsNotNull operator. -/
theorem parseComparisonOperator_isNotNull_inv {t : String}
    (h : parseComparisonOperator t = Except.ok ComparisonOperator.isNotNull) :
    t = "IS NOT NULL" := by
  unfold parseComparisonOperator at h
  split_ifs at h <;> simp_all

/-- A successful addDateFilter appends one singleton OR-group to exactly the
named field and leaves the other three untouched. -/
theorem addDateFilter_success {field : String} {op : ComparisonOperator}
    {d : Option String} {sf sf' : SearchFilters}
    (h : addDateFilter field op d sf = (sf', none)) :
    (field = "created_at" ∧
      sf'.createdAt = sf.createdAt ++ [[{ comparisonOperator := op, date := d }]] ∧
      sf'.validAt = sf.validAt ∧ sf'.invalidAt = sf.invalidAt ∧ sf'.expiredAt = sf.expiredAt) ∨
    (field = "valid_at" ∧
      sf'.validAt = sf.validAt ++ [[{ comparisonOperator := op, date := d }]] ∧
      sf'.createdAt = sf.createdAt ∧ sf'.invalidAt = sf.invalidAt ∧ sf'.expiredAt = sf.expiredAt) ∨
    (field = "invalid_at" ∧
      sf'.invalidAt = sf.invalidAt ++ [[{ comparisonOperator := op, date := d }]] ∧
      sf'.createdAt = sf.createdAt ∧ sf'.validAt = sf.validAt ∧ sf'.expiredAt = sf.expiredAt) ∨
    (field = "expired_at" ∧
      sf'.expiredAt = sf.expiredAt ++ [[{ comparisonOperator := op, date := d }]] ∧
      sf'.createdAt = sf.createdAt ∧ sf'.validAt = sf.validAt ∧ sf'.invalidAt = sf.invalidAt) := by
  unfold addDateFilter at h
  split_ifs at h with h1 h2 h3 h4
  · simp only [Prod.mk.injEq] at h
    exact Or.inl ⟨h1, by rw [← h.1]; exact ⟨rfl, rfl, rfl, rfl⟩⟩
  · simp only [Prod.mk.injEq] at h
    exact Or.inr (Or.inl ⟨h2, by rw [← h.1]; exact ⟨rfl, rfl, rfl, rfl⟩⟩)
  · simp only [Prod.mk.injEq] at h
    exact Or.inr (Or.inr (Or.inl ⟨h3, by rw [← h.1]; exact ⟨rfl, rfl, rfl, rfl⟩⟩))
  · simp only [Prod.mk.injEq] at h
    exact Or.inr (Or.inr (Or.inr ⟨h4, by rw [← h.1]; exact ⟨rfl, rfl, rfl, rfl⟩⟩))
  · simp only [Prod.mk.injEq] at h
    exact absurd h.2 (by simp)

/-- A failing addDateFilter returns the filters unchanged. -/
theorem addDateFilter_error {field : String} {op : ComparisonOperator}
    {d : Option String} {sf sf' : SearchFilters} {e : String}
    (h : addDateFilter field op d sf = (sf', some e)) : sf' = sf := by
  unfold addDateFilter at h
  split_ifs at h <;> simp_all [Prod.ext_iff]

/-- A field outside the fixed four makes addDateFilter fail with the
unknown-field error and append nothing. -/
theorem addDateFilter_unknown {field : String} (h1 : field ≠ "created_at")
    (h2 : field ≠ "valid_at") (h3 : field ≠ "invalid_at") (h4 : field ≠ "expired_at")
    (op : ComparisonOperator) (d : Option String) (sf : SearchFilters) :
    addDateFilter field op d sf =
      (sf, some ("unknown date field: " ++ field ++
        " (valid: created_at, valid_at, invalid_at, expired_at)")) := by
  unfold addDateFilter
  rw [if_neg h1, if_neg h2, if_neg h3, if_neg h4]

/-- A field among the fixed four always makes addDateFilter succeed. -/
theorem addDateFilter_known {field : String}
    (h : field = "created_at" ∨ field = "valid_at" ∨ field = "invalid_at" ∨
      field = "expired_at")
    (op : ComparisonOperator) (d : Option String) (sf : SearchFilters) :
    (addDateFilter field op d sf).2 = none := by
  rcases h with h | h | h | h <;> subst h <;> rfl

/-- Every successful parseDateFilter call goes through addDateFilter on the
original filter set. -/
theorem parseDateFilter_success {s : String} {sf sf' : SearchFilters}
    (h : parseDateFilter s sf = (sf', none)) :
    ∃ field op d, addDateFilter field op d sf = (sf', none) := by
  unfold parseDateFilter at h
  revert h
  split
  · next pre _ _ =>
    split
    · intro h
      exact absurd h (by simp)
    · intro h
      exact ⟨String.mk pre, ComparisonOperator.isNotNull, none, h⟩
  · split
    · next pre _ _ =>
      split
      · intro h
        exact absurd h (by simp)
      · intro h
        exact ⟨String.mk pre, ComparisonOperator.isNull, none, h⟩
    · split
      · next p0 p1 p2 _ =>
        split
        · intro h
          exact absurd h (by simp)
        · next op _ =>
          intro h
          exact ⟨String.mk p0, op, some (String.mk p2), h⟩
      · intro h
        exact absurd h (by simp)

/-- A failing parseDateFilter returns the filters unchanged. -/
theorem parseDateFilter_error {s : String} {sf sf' : SearchFilters} {e : String}
    (h : parseDateFilter s sf = (sf', some e)) : sf' = sf := by
  unfold parseDateFilter at h
  revert h
  split
  · split
    · intro h
      simp only [Prod.mk.injEq] at h
      exact h.1.symm
    · intro h
      exact addDateFilter_error h
  · split
    · split
      · intro h
        simp only [Prod.mk.injEq] at h
        exact h.1.symm
      · intro h
        exact addDateFilter_error h
    · split
      · split
        · intro h
          simp only [Prod.mk.injEq] at h
          exact h.1.symm
        · intro h
          exact addDateFilter_error h
      · intro h
        simp only [Prod.mk.injEq] at h
        exact h.1.symm

/-- parsePropertyFilter on a string containing the IS NOT NULL marker with a
non-empty name before its first occurrence. -/
theorem parsePropertyFilter_notNull_marker {s : String} {pre suf : List Char}
    (h : breakSub isNotNullPat s.data = some (pre, suf)) (hne : pre ≠ []) :
    parsePropertyFilter s =
      Except.ok { propertyName := String.mk pre,
                  comparisonOperator := ComparisonOperator.isNotNull,
                  propertyValue := GoValue.null } := by
  unfold parsePropertyFilter
  rw [h]
  simp [hne]

/-- parsePropertyFilter on a string containing the IS NULL marker (and not the
IS NOT NULL marker) with a non-empty name before its first occurrence. -/
theorem parsePropertyFilter_null_marker {s : String} {pre suf : List Char}
    (hnn : breakSub isNotNullPat s.data = none)
    (h : breakSub isNullPat s.data = some (pre, suf)) (hne : pre ≠ []) :
    parsePropertyFilter s =
      Except.ok { propertyName := String.mk pre,
                  comparisonOperator := ComparisonOperator.isNull,
                  propertyValue := GoValue.null } := by
  unfold parsePropertyFilter
  rw [hnn, h]
  simp [hne]

/-- parsePropertyFilter on a marker-free string that splits into three parts
delegates to the operator parser and the value type inference. -/
theorem parsePropertyFilter_three {s : String} {p0 p1 p2 : List Char}
    (hnn : breakSub isNotNullPat s.data = none)
    (hn : breakSub isNullPat s.data = none)
    (hsplit : goSplitN [':'] 3 s.data = [p0, p1, p2]) :
    parsePropertyFilter s =
      (match parseComparisonOperator (String.mk p1) with
       | Except.error e =>
         Except.error ("invalid operator in property filter " ++ goQuote s ++ ": " ++ e)
       | Except.ok op =>
         Except.ok { propertyName := String.mk p0,
                     comparisonOperator := op,
                     propertyValue := inferValue (String.mk p2) }) := by
  unfold parsePropertyFilter
  rw [hnn, hn, hsplit]

/-- parseDateFilter on a string containing the IS NOT NULL marker with a
non-empty field before its first occurrence delegates to addDateFilter with an
absent date. -/
theorem parseDateFilter_notNull_marker {s : String} {pre suf : List Char}
    (h : breakSub isNotNullPat s.data = some (pre, suf)) (hne : pre ≠ [])
    (sf : SearchFilters) :
    parseDateFilter s sf = addDateFilter (String.mk pre) ComparisonOperator.isNotNull none sf := by
  unfold parseDateFilter
  rw [h]
  simp [hne]

/-- parseDateFilter on a string containing the IS NULL marker (and not the IS
NOT NULL marker) with a non-empty field before its first occurrence. -/
theorem parseDateFilter_null_marker {s : String} {pre suf : List Char}
    (hnn : breakSub isNotNullPat s.data = none)
    (h : breakSub isNullPat s.data = some (pre, suf)) (hne : pre ≠ [])
    (sf : SearchFilters) :
    parseDateFilter s sf = addDateFilter (String.mk pre) ComparisonOperator.isNull none sf := by
  unfold parseDateFilter
  rw [hnn, h]
  simp [hne]

/-- parseDateFilter on a marker-free three-part string. -/
theorem parseDateFilter_three {s : String} {p0 p1 p2 : List Char}
    (hnn : breakSub isNotNullPat s.data = none)
    (hn : breakSub isNullPat s.data = none)
    (hsplit : goSplitN [':'] 3 s.data = [p0, p1, p2]) (sf : SearchFilters) :
    parseDateFilter s sf =
      (match parseComparisonOperator (String.mk p1) with
       | Except.error e =>
         (sf, some ("invalid operator in date filter " ++ goQuote s ++ ": " ++ e))
       | Except.ok op => addDateFilter (String.mk p0) op (some (String.mk p2)) sf) := by
  unfold parseDateFilter
  rw [hnn, hn, hsplit]

/-- In the marker-free three-part path the operator can never be IsNull or
IsNotNull: the token IS NULL or IS NOT NULL in second position would have put
the corresponding marker into the string. -/
theorem threePart_op_not_null {s : String} {p0 p1 p2 : List Char}
    (hnn : breakSub isNotNullPat s.data = none)
    (hn : breakSub isNullPat s.data = none)
    (hsplit : goSplitN [':'] 3 s.data = [p0, p1, p2])
    {op : ComparisonOperator} (hop : parseComparisonOperator (String.mk p1) = Except.ok op) :
    op ≠ ComparisonOperator.isNull ∧ op ≠ ComparisonOperator.isNotNull := by
  obtain ⟨hs, _, _⟩ := goSplitN_three_inv hsplit
  constructor
  · intro hisnull
    subst hisnull
    have hp1 : String.mk p1 = "IS NULL" := parseComparisonOperator_isNull_inv hop
    have hp1d : p1 = "IS NULL".data := congrArg String.data hp1
    have hshape : s.data = p0 ++ isNullPat ++ (':' :: p2) := by
      rw [hs, hp1d]
      simp [isNullPat]
    have hsome := @breakSub_isSome isNullPat p0 (':' :: p2)
    rw [← hshape, hn] at hsome
    exact absurd hsome (by simp)
  · intro hisnotnull
    subst hisnotnull
    have hp1 : String.mk p1 = "IS NOT NULL" := parseComparisonOperator_isNotNull_inv hop
    have hp1d : p1 = "IS NOT NULL".data := congrArg String.data hp1
    have hshape : s.data = p0 ++ isNotNullPat ++ (':' :: p2) := by
      rw [hs, hp1d]
      simp [isNotNullPat]
    have hsome := @breakSub_isSome isNotNullPat p0 (':' :: p2)
    rw [← hshape, hnn] at hsome
    exact absurd hsome (by simp)

/-- Concatenating the three parts with colons yields the expected character
list. -/
theorem filterString_data (name op v : String) :
    (name ++ ":" ++ op ++ ":" ++ v).data = name.data ++ ':' :: (op.data ++ ':' :: v.data) := by
  have hc : (":" : String).data = [':'] := rfl
  simp [String.data_append, hc]

/-- No occurrence in a string means no occurrence in any of its prefixes. -/
theorem breakSub_none_of_leading {pat s' s : List Char} (h : breakSub pat s = none)
    (hp : s' <+: s) : breakSub pat s' = none := by
  rcases hres : breakSub pat s' with _ | ⟨pre, suf⟩
  · rfl
  · obtain ⟨t, ht⟩ := hp
    have hs' := breakSub_eq_parts hres
    have hshape : s = pre ++ pat ++ (suf ++ t) := by
      rw [← ht, hs']
      simp [List.append_assoc]
    have hsome := @breakSub_isSome pat pre (suf ++ t)
    rw [← hshape, h] at hsome
    exact absurd hsome (by simp)

/-- C2: parseComparisonOperator maps exactly the tokens =, ==, <>, !=, >, <,
>=, <=, IS NULL and IS NOT NULL to their operators, and every other string,
including the empty string, LIKE and IN, fails with the unknown-operator
error. -/
theorem c2_operator_mapping :
    parseComparisonOperator "=" = Except.ok ComparisonOperator.equals ∧
    parseComparisonOperator "==" = Except.ok ComparisonOperator.equals ∧
    parseComparisonOperator "<>" = Except.ok ComparisonOperator.notEquals ∧
    parseComparisonOperator "!=" = Except.ok ComparisonOperator.notEquals ∧
    parseComparisonOperator ">" = Except.ok ComparisonOperator.greaterThan ∧
    parseComparisonOperator "<" = Except.ok ComparisonOperator.lessThan ∧
    parseComparisonOperator ">=" = Except.ok ComparisonOperator.greaterThanEqual ∧
    parseComparisonOperator "<=" = Except.ok ComparisonOperator.lessThanEqual ∧
    parseComparisonOperator "IS NULL" = Except.ok ComparisonOperator.isNull ∧
    parseComparisonOperator "IS NOT NULL" = Except.ok ComparisonOperator.isNotNull ∧
    parseComparisonOperator "" = Except.error ("unknown operator: " ++ "") ∧
    parseComparisonOperator "LIKE" = Except.error ("unknown operator: " ++ "LIKE") ∧
    parseComparisonOperator "IN" = Except.error ("unknown operator: " ++ "IN") ∧
    ∀ s : String, s ≠ "=" → s ≠ "==" → s ≠ "<>" → s ≠ "!=" → s ≠ ">" → s ≠ "<" →
      s ≠ ">=" → s ≠ "<=" → s ≠ "IS NULL" → s ≠ "IS NOT NULL" →
      parseComparisonOperator s = Except.error ("unknown operator: " ++ s) := by
  refine ⟨rfl, rfl, rfl, rfl, rfl, rfl, rfl, rfl, rfl, rfl, rfl, rfl, rfl, ?_⟩
  intro s h1 h2 h3 h4 h5 h6 h7 h8 h9 h10
  unfold parseComparisonOperator
  rw [if_neg (not_or.mpr ⟨h1, h2⟩), if_neg (not_or.mpr ⟨h3, h4⟩), if_neg h5, if_neg h6,
    if_neg h7, if_neg h8, if_neg h9, if_neg h10]

/-- Witness for C2 at the concrete rejected token LIKE. -/
theorem c2_witness :
    parseComparisonOperator "LIKE" = Except.error ("unknown operator: " ++ "LIKE") :=
  c2_operator_mapping.2.2.2.2.2.2.2.2.2.2.2.2.2 "LIKE" (by decide) (by decide) (by decide)
    (by decide) (by decide) (by decide) (by decide) (by decide) (by decide) (by decide)

/-- C6 counterexample: a three-part filter with an empty first segment is
accepted, producing a PropertyFilter whose propertyName is the empty string,
while the claim says every empty-name filter fails. -/
theorem c6_counterexample :
    parsePropertyFilter ":=:5" =
      Except.ok { propertyName := "", comparisonOperator := ComparisonOperator.equals,
                  propertyValue := GoValue.int 5 } := by
  rfl

/-- C6 amended: the IS-NULL-shaped forms do reject an empty property name, but
the three-part form performs no name check, so parsePropertyFilter can return
a PropertyFilter with an empty propertyName. -/
theorem c6_empty_name :
    (∀ (s : String) (pre suf : List Char), breakSub isNotNullPat s.data = some (pre, suf) →
       pre = [] →
       parsePropertyFilter s = Except.error ("invalid property filter format: " ++ goQuote s)) ∧
    (∀ (s : String) (pre suf : List Char), breakSub isNotNullPat s.data = none →
       breakSub isNullPat s.data = some (pre, suf) → pre = [] →
       parsePropertyFilter s = Except.error ("invalid property filter format: " ++ goQuote s)) ∧
    parsePropertyFilter ":=:5" =
      Except.ok { propertyName := "", comparisonOperator := ComparisonOperator.equals,
                  propertyValue := GoValue.int 5 } := by
  refine ⟨?_, ?_, rfl⟩
  · intro s pre suf h hpre
    unfold parsePropertyFilter
    rw [h]
    simp [hpre]
  · intro s pre suf hnn h hpre
    unfold parsePropertyFilter
    rw [hnn, h]
    simp [hpre]

/-- Witness for C6 amended at the concrete input of the spec example. -/
theorem c6_witness :
    parsePropertyFilter ":IS NULL" =
      Except.error ("invalid property filter format: " ++ goQuote ":IS NULL") :=
  c6_empty_name.2.1 ":IS NULL" [] [] (by decide) (by decide) rfl

/-- The absence invariant of a single DateFilter: the date is absent exactly
when the operator is IsNull or IsNotNull. -/
def dateFilterInv (df : DateFilter) : Prop :=
  df.date = none ↔
    (df.comparisonOperator = ComparisonOperator.isNull ∨
     df.comparisonOperator = ComparisonOperator.isNotNull)

/-- The absence invariant over every DateFilter stored in a SearchFilters. -/
def searchFiltersInv (sf : SearchFilters) : Prop :=
  (∀ g ∈ sf.createdAt, ∀ df ∈ g, dateFilterInv df) ∧
  (∀ g ∈ sf.validAt, ∀ df ∈ g, dateFilterInv df) ∧
  (∀ g ∈ sf.invalidAt, ∀ df ∈ g, dateFilterInv df) ∧
  (∀ g ∈ sf.expiredAt, ∀ df ∈ g, dateFilterInv df)

/-- Refined success inversion for parseDateFilter: the appended filter obeys
the date-absence invariant, because the three-part path always carries a
present date and can never produce IsNull or IsNotNull. -/
theorem parseDateFilter_success_inv {s : String} {sf sf' : SearchFilters}
    (h : parseDateFilter s sf = (sf', none)) :
    ∃ field op d, addDateFilter field op d sf = (sf', none) ∧
      (d = none ↔ (op = ComparisonOperator.isNull ∨ op = ComparisonOperator.isNotNull)) := by
  unfold parseDateFilter at h
  revert h
  split
  · next pre _ _ =>
    split
    · intro h
      exact absurd h (by simp)
    · intro h
      exact ⟨String.mk pre, ComparisonOperator.isNotNull, none, h, by simp⟩
  · next hnn =>
    split
    · next pre _ _ =>
      split
      · intro h
        exact absurd h (by simp)
      · intro h
        exact ⟨String.mk pre, ComparisonOperator.isNull, none, h, by simp⟩
    · next hn =>
      split
      · next p0 p1 p2 hsplit =>
        split
        · intro h
          exact absurd h (by simp)
        · next op hop =>
          intro h
          have hne := threePart_op_not_null hnn hn hsplit hop
          exact ⟨String.mk p0, op, some (String.mk p2), h, by simp [hne.1, hne.2]⟩
      · intro h
        exact absurd h (by simp)

/-- C7 counterexample: the value token null produces a nil (absent) property
value under the Equals operator, so value-absence does not imply an
IsNull/IsNotNull operator. -/
theorem c7_counterexample :
    parsePropertyFilter "x:=:null" =
      Except.ok { propertyName := "x", comparisonOperator := ComparisonOperator.equals,
                  propertyValue := GoValue.null } ∧
    ComparisonOperator.equals ≠ ComparisonOperator.isNull ∧
    ComparisonOperator.equals ≠ ComparisonOperator.isNotNull :=
  ⟨rfl, by decide, by decide⟩

/-- C7 amended: an IsNull/IsNotNull property filter always has a nil value and
the three-part path never yields those operators, so for PropertyFilter the
absence implication holds left to right only (null or empty value tokens also
give a nil value); for DateFilter the full absence equivalence is preserved by
every parseDateFilter call. -/
theorem c7_absence_invariant :
    (∀ (s : String) (pf : PropertyFilter), parsePropertyFilter s = Except.ok pf →
       (pf.comparisonOperator = ComparisonOperator.isNull ∨
        pf.comparisonOperator = ComparisonOperator.isNotNull) →
       pf.propertyValue = GoValue.null) ∧
    (∀ (s : String) (sf : SearchFilters), searchFiltersInv sf →
       searchFiltersInv (parseDateFilter s sf).1) := by
  constructor
  · intro s pf h hnull
    unfold parsePropertyFilter at h
    revert h
    split
    · split
      · intro h
        exact absurd h (by simp)
      · intro h
        simp only [Except.ok.injEq] at h
        rw [← h]
    · next hnn =>
      split
      · split
        · intro h
          exact absurd h (by simp)
        · intro h
          simp only [Except.ok.injEq] at h
          rw [← h]
      · next hn =>
        split
        · next p0 p1 p2 hsplit =>
          split
          · intro h
            exact absurd h (by simp)
          · next op hop =>
            intro h
            simp only [Except.ok.injEq] at h
            have hne := threePart_op_not_null hnn hn hsplit hop
            rw [← h] at hnull
            simp only at hnull
            rcases hnull with h1 | h1
            · exact absurd h1 hne.1
            · exact absurd h1 hne.2
        · intro h
          exact absurd h (by simp)
  · intro s sf hinv
    rcases hres : parseDateFilter s sf with ⟨sf2, e⟩
    cases e with
    | some e =>
      have : sf2 = sf := parseDateFilter_error hres
      rw [this]
      exact hinv
    | none =>
      obtain ⟨field, op, d, hadd, hiff⟩ := parseDateFilter_success_inv hres
      have hdf : dateFilterInv { comparisonOperator := op, date := d } := hiff
      obtain ⟨i1, i2, i3, i4⟩ := hinv
      rcases addDateFilter_success hadd with
        ⟨_, ha, hb, hc, hd⟩ | ⟨_, ha, hb, hc, hd⟩ | ⟨_, ha, hb, hc, hd⟩ | ⟨_, ha, hb, hc, hd⟩ <;>
        refine ⟨?_, ?_, ?_, ?_⟩ <;> simp only [ha, hb, hc, hd] <;>
        intro g hg df hdfm <;>
        first
        | (rcases List.mem_append.mp hg with hgl | hgl
           · first
             | exact i1 g hgl df hdfm
             | exact i2 g hgl df hdfm
             | exact i3 g hgl df hdfm
             | exact i4 g hgl df hdfm
           · simp at hgl
             subst hgl
             simp at hdfm
             subst hdfm
             exact hdf)
        | exact i1 g hg df hdfm
        | exact i2 g hg df hdfm
        | exact i3 g hg df hdfm
        | exact i4 g hg df hdfm

/-- Witness for C7 amended at a concrete IS NULL property filter. -/
theorem c7_witness :
    ({ propertyName := "deleted_at", comparisonOperator := ComparisonOperator.isNull,
       propertyValue := GoValue.null } : PropertyFilter).propertyValue = GoValue.null :=
  c7_absence_invariant.1 "deleted_at:IS NULL"
    { propertyName := "deleted_at", comparisonOperator := ComparisonOperator.isNull,
      propertyValue := GoValue.null } rfl (Or.inl rfl)

/-- C1: on a marker-free filter of the form name:op:value with a valid
operator token, parsePropertyFilter returns the name, the parsed operator and
the inferred value, and the inference follows the fixed priority order of the
source: the literals true, false, null and the empty token first, then a
base-10 int64 parse, then a floating-point parse, then the raw token as a
string; in particular 30 becomes the integer 30 and never a float, 4.5
becomes the float 4.5, true becomes the boolean true, and an overflowing
literal such as 1e999, whose ParseFloat call fails with ErrRange, stays a raw
string. -/
theorem c1_type_inference (name op v : String) (o : ComparisonOperator)
    (hmark1 : breakSub isNotNullPat (name ++ ":" ++ op ++ ":" ++ v).data = none)
    (hmark2 : breakSub isNullPat (name ++ ":" ++ op ++ ":" ++ v).data = none)
    (hname : ':' ∉ name.data) (hopc : ':' ∉ op.data)
    (ho : parseComparisonOperator op = Except.ok o) :
    parsePropertyFilter (name ++ ":" ++ op ++ ":" ++ v) =
      Except.ok { propertyName := name, comparisonOperator := o,
                  propertyValue := inferValue v } ∧
    inferValue "true" = GoValue.boolean true ∧
    inferValue "false" = GoValue.boolean false ∧
    inferValue "null" = GoValue.null ∧
    inferValue "" = GoValue.null ∧
    (∀ i : Int, v ≠ "true" → v ≠ "false" → v ≠ "null" → v ≠ "" →
       parseInt64 v = some i → inferValue v = GoValue.int i) ∧
    (v ≠ "true" → v ≠ "false" → v ≠ "null" → v ≠ "" → parseInt64 v = none →
       goParseFloatAccepts v.data = true → inferValue v = GoValue.float v) ∧
    (v ≠ "true" → v ≠ "false" → v ≠ "null" → v ≠ "" → parseInt64 v = none →
       goParseFloatAccepts v.data = false → inferValue v = GoValue.str v) ∧
    parsePropertyFilter "age:>:30" =
      Except.ok { propertyName := "age", comparisonOperator := ComparisonOperator.greaterThan,
                  propertyValue := GoValue.int 30 } ∧
    parsePropertyFilter "rating:<=:4.5" =
      Except.ok { propertyName := "rating", comparisonOperator := ComparisonOperator.lessThanEqual,
                  propertyValue := GoValue.float "4.5" } ∧
    parsePropertyFilter "active:=:true" =
      Except.ok { propertyName := "active", comparisonOperator := ComparisonOperator.equals,
                  propertyValue := GoValue.boolean true } ∧
    parsePropertyFilter "x:=:1e999" =
      Except.ok { propertyName := "x", comparisonOperator := ComparisonOperator.equals,
                  propertyValue := GoValue.str "1e999" } := by
  refine ⟨?_, rfl, rfl, rfl, rfl, ?_, ?_, ?_, rfl, rfl, rfl, rfl⟩
  · have hsplit : goSplitN [':'] 3 (name ++ ":" ++ op ++ ":" ++ v).data =
        [name.data, op.data, v.data] := by
      rw [filterString_data]
      exact goSplitN_three_of hname hopc _
    rw [parsePropertyFilter_three hmark1 hmark2 hsplit]
    rw [show parseComparisonOperator (String.mk op.data) = Except.ok o from ho]
  · intro i h1 h2 h3 h4 hi
    unfold inferValue
    rw [if_neg h1, if_neg h2, if_neg (not_or.mpr ⟨h3, h4⟩), hi]
  · intro h1 h2 h3 h4 hnone hacc
    unfold inferValue
    rw [if_neg h1, if_neg h2, if_neg (not_or.mpr ⟨h3, h4⟩), hnone, hacc]
    simp
  · intro h1 h2 h3 h4 hnone hacc
    unfold inferValue
    rw [if_neg h1, if_neg h2, if_neg (not_or.mpr ⟨h3, h4⟩), hnone, hacc]
    simp

/-- Witness for C1 at the concrete filter age:>:30. -/
theorem c1_witness :
    parsePropertyFilter ("age" ++ ":" ++ ">" ++ ":" ++ "30") =
      Except.ok { propertyName := "age", comparisonOperator := ComparisonOperator.greaterThan,
                  propertyValue := inferValue "30" } :=
  (c1_type_inference "age" ">" "30" ComparisonOperator.greaterThan (by decide) (by decide)
    (by decide) (by decide) rfl).1

/-- C3: every successful parseDateFilter call appends exactly one singleton
OR-group to the end of the sequence of exactly one of the four date fields,
leaving the other three unchanged; a field outside the fixed set fails with
the unknown-field error and appends nothing; and two calls on the same field
yield two independent singleton OR-groups, never one AND-group of two. -/
theorem c3_singleton_or_groups :
    (∀ (s : String) (sf sf' : SearchFilters), parseDateFilter s sf = (sf', none) →
       ∃ df : DateFilter,
         (sf'.createdAt = sf.createdAt ++ [[df]] ∧ sf'.validAt = sf.validAt ∧
          sf'.invalidAt = sf.invalidAt ∧ sf'.expiredAt = sf.expiredAt) ∨
         (sf'.validAt = sf.validAt ++ [[df]] ∧ sf'.createdAt = sf.createdAt ∧
          sf'.invalidAt = sf.invalidAt ∧ sf'.expiredAt = sf.expiredAt) ∨
         (sf'.invalidAt = sf.invalidAt ++ [[df]] ∧ sf'.createdAt = sf.createdAt ∧
          sf'.validAt = sf.validAt ∧ sf'.expiredAt = sf.expiredAt) ∨
         (sf'.expiredAt = sf.expiredAt ++ [[df]] ∧ sf'.createdAt = sf.createdAt ∧
          sf'.validAt = sf.validAt ∧ sf'.invalidAt = sf.invalidAt)) ∧
    (∀ field : String, field ≠ "created_at" → field ≠ "valid_at" → field ≠ "invalid_at" →
       field ≠ "expired_at" →
       ∀ (op : ComparisonOperator) (d : Option String) (sf : SearchFilters),
         addDateFilter field op d sf =
           (sf, some ("unknown date field: " ++ field ++
             " (valid: created_at, valid_at, invalid_at, expired_at)"))) ∧
    (∀ sf : SearchFilters, parseDateFilter "unknown_field:>:2024-01-01" sf =
       (sf, some ("unknown date field: " ++ "unknown_field" ++
         " (valid: created_at, valid_at, invalid_at, expired_at)"))) ∧
    (parseDateFilter "created_at:>:2024-01-01"
        (parseDateFilter "created_at:>:2024-01-01" {}).1).1.createdAt =
      [[{ comparisonOperator := ComparisonOperator.greaterThan, date := some "2024-01-01" }],
       [{ comparisonOperator := ComparisonOperator.greaterThan, date := some "2024-01-01" }]] := by
  refine ⟨?_, ?_, ?_, rfl⟩
  · intro s sf sf' h
    obtain ⟨field, op, d, hadd⟩ := parseDateFilter_success h
    exact ⟨{ comparisonOperator := op, date := d },
      (addDateFilter_success hadd).imp (fun a => a.2)
        (fun a => a.imp (fun b => b.2) (fun b => b.imp (fun c => c.2) (fun c => c.2)))⟩
  · intro field h1 h2 h3 h4 op d sf
    exact addDateFilter_unknown h1 h2 h3 h4 op d sf
  · intro sf
    rfl

/-- The date filter produced by the C3 witness input. -/
def dfWitness : DateFilter :=
  { comparisonOperator := ComparisonOperator.greaterThan, date := some "2024-01-01" }

/-- The filter set reached after one successful created_at append from the
empty set. -/
def sfWitness : SearchFilters := { createdAt := [[dfWitness]] }

/-- Witness for C3 at a concrete created_at filter from the empty set. -/
theorem c3_witness :
    ∃ df : DateFilter,
      (sfWitness.createdAt = ({} : SearchFilters).createdAt ++ [[df]] ∧
       sfWitness.validAt = ({} : SearchFilters).validAt ∧
       sfWitness.invalidAt = ({} : SearchFilters).invalidAt ∧
       sfWitness.expiredAt = ({} : SearchFilters).expiredAt) ∨
      (sfWitness.validAt = ({} : SearchFilters).validAt ++ [[df]] ∧
       sfWitness.createdAt = ({} : SearchFilters).createdAt ∧
       sfWitness.invalidAt = ({} : SearchFilters).invalidAt ∧
       sfWitness.expiredAt = ({} : SearchFilters).expiredAt) ∨
      (sfWitness.invalidAt = ({} : SearchFilters).invalidAt ++ [[df]] ∧
       sfWitness.createdAt = ({} : SearchFilters).createdAt ∧
       sfWitness.validAt = ({} : SearchFilters).validAt ∧
       sfWitness.expiredAt = ({} : SearchFilters).expiredAt) ∨
      (sfWitness.expiredAt = ({} : SearchFilters).expiredAt ++ [[df]] ∧
       sfWitness.createdAt = ({} : SearchFilters).createdAt ∧
       sfWitness.validAt = ({} : SearchFilters).validAt ∧
       sfWitness.invalidAt = ({} : SearchFilters).invalidAt) :=
  c3_singleton_or_groups.1 "created_at:>:2024-01-01" {} sfWitness rfl

/-- C9 counterexample: the original claim asserts that both parsers succeed
whenever a marker has non-empty text before its first occurrence, but
parseDateFilter on bogus:IS NULL takes the marker path with the non-empty
field bogus and still fails with the unknown-field error, appending
nothing. -/
theorem c9_counterexample :
    breakSub isNullPat "bogus:IS NULL".data = some ("bogus".data, []) ∧
    "bogus".data ≠ [] ∧
    parseDateFilter "bogus:IS NULL" {} =
      ({}, some ("unknown date field: " ++ "bogus" ++
        " (valid: created_at, valid_at, invalid_at, expired_at)")) :=
  ⟨by decide, by decide, rfl⟩

/-- C9 amended: when the input contains the IS NOT NULL marker (or, failing
that, the IS NULL marker) with non-empty text before its first occurrence,
both parsers discard all text from the marker onward and never reach the
three-part operator/value path: the outcome equals that of the prefix followed
by the bare marker.  parsePropertyFilter then always succeeds with the prefix
as the name; parseDateFilter delegates the prefix to addDateFilter and
succeeds exactly when the prefix is one of the four date fields, failing with
the unknown-field error otherwise. -/
theorem c9_marker_discard :
    (∀ (s : String) (pre suf : List Char), breakSub isNotNullPat s.data = some (pre, suf) →
       pre ≠ [] →
       parsePropertyFilter s =
         Except.ok { propertyName := String.mk pre,
                     comparisonOperator := ComparisonOperator.isNotNull,
                     propertyValue := GoValue.null } ∧
       parsePropertyFilter s = parsePropertyFilter (String.mk pre ++ ":IS NOT NULL")) ∧
    (∀ (s : String) (pre suf : List Char), breakSub isNotNullPat s.data = none →
       breakSub isNullPat s.data = some (pre, suf) → pre ≠ [] →
       parsePropertyFilter s =
         Except.ok { propertyName := String.mk pre,
                     comparisonOperator := ComparisonOperator.isNull,
                     propertyValue := GoValue.null } ∧
       parsePropertyFilter s = parsePropertyFilter (String.mk pre ++ ":IS NULL")) ∧
    (∀ (s : String) (pre suf : List Char) (sf : SearchFilters),
       breakSub isNotNullPat s.data = some (pre, suf) → pre ≠ [] →
       parseDateFilter s sf =
         addDateFilter (String.mk pre) ComparisonOperator.isNotNull none sf ∧
       parseDateFilter s sf = parseDateFilter (String.mk pre ++ ":IS NOT NULL") sf ∧
       ((String.mk pre = "created_at" ∨ String.mk pre = "valid_at" ∨
         String.mk pre = "invalid_at" ∨ String.mk pre = "expired_at") →
         (parseDateFilter s sf).2 = none) ∧
       (String.mk pre ≠ "created_at" → String.mk pre ≠ "valid_at" →
        String.mk pre ≠ "invalid_at" → String.mk pre ≠ "expired_at" →
        parseDateFilter s sf =
          (sf, some ("unknown date field: " ++ String.mk pre ++
            " (valid: created_at, valid_at, invalid_at, expired_at)")))) ∧
    (∀ (s : String) (pre suf : List Char) (sf : SearchFilters),
       breakSub isNotNullPat s.data = none → breakSub isNullPat s.data = some (pre, suf) →
       pre ≠ [] →
       parseDateFilter s sf = addDateFilter (String.mk pre) ComparisonOperator.isNull none sf ∧
       parseDateFilter s sf = parseDateFilter (String.mk pre ++ ":IS NULL") sf ∧
       ((String.mk pre = "created_at" ∨ String.mk pre = "valid_at" ∨
         String.mk pre = "invalid_at" ∨ String.mk pre = "expired_at") →
         (parseDateFilter s sf).2 = none) ∧
       (String.mk pre ≠ "created_at" → String.mk pre ≠ "valid_at" →
        String.mk pre ≠ "invalid_at" → String.mk pre ≠ "expired_at" →
        parseDateFilter s sf =
          (sf, some ("unknown date field: " ++ String.mk pre ++
            " (valid: created_at, valid_at, invalid_at, expired_at)")))) ∧
    parsePropertyFilter "name:IS NOT NULLxyz" = parsePropertyFilter "name:IS NOT NULL" ∧
    parsePropertyFilter "name:IS NULL:extra" = parsePropertyFilter "name:IS NULL" ∧
    parseDateFilter "created_at:IS NULL:extra" {} = parseDateFilter "created_at:IS NULL" {} := by
  have hdata1 : ∀ pre : List Char, (String.mk pre ++ ":IS NOT NULL").data = pre ++ isNotNullPat := by
    intro pre
    simp [String.data_append, isNotNullPat]
  have hdata2 : ∀ pre : List Char, (String.mk pre ++ ":IS NULL").data = pre ++ isNullPat := by
    intro pre
    simp [String.data_append, isNullPat]
  have hbr1 : ∀ {s : String} {pre suf : List Char},
      breakSub isNotNullPat s.data = some (pre, suf) →
      breakSub isNotNullPat (String.mk pre ++ ":IS NOT NULL").data = some (pre, []) := by
    intro s pre suf h
    rw [hdata1 pre]
    have := breakSub_first h []
    simpa using this
  have hbr2 : ∀ {s : String} {pre suf : List Char},
      breakSub isNullPat s.data = some (pre, suf) →
      breakSub isNullPat (String.mk pre ++ ":IS NULL").data = some (pre, []) := by
    intro s pre suf h
    rw [hdata2 pre]
    have := breakSub_first h []
    simpa using this
  have hbr2nn : ∀ {s : String} {pre suf : List Char},
      breakSub isNotNullPat s.data = none → breakSub isNullPat s.data = some (pre, suf) →
      breakSub isNotNullPat (String.mk pre ++ ":IS NULL").data = none := by
    intro s pre suf hnn h
    rw [hdata2 pre]
    have hparts := breakSub_eq_parts h
    exact breakSub_none_of_leading hnn ⟨suf, by rw [← hparts]⟩
  refine ⟨?_, ?_, ?_, ?_, ?_, ?_, ?_⟩
  · intro s pre suf h hne
    refine ⟨parsePropertyFilter_notNull_marker h hne, ?_⟩
    rw [parsePropertyFilter_notNull_marker h hne,
      parsePropertyFilter_notNull_marker (hbr1 h) hne]
  · intro s pre suf hnn h hne
    refine ⟨parsePropertyFilter_null_marker hnn h hne, ?_⟩
    rw [parsePropertyFilter_null_marker hnn h hne,
      parsePropertyFilter_null_marker (hbr2nn hnn h) (hbr2 h) hne]
  · intro s pre suf sf h hne
    have hdel := parseDateFilter_notNull_marker h hne sf
    refine ⟨hdel, ?_, ?_, ?_⟩
    · rw [hdel, parseDateFilter_notNull_marker (hbr1 h) hne sf]
    · intro hfield
      rw [hdel]
      exact addDateFilter_known hfield _ _ _
    · intro h1 h2 h3 h4
      rw [hdel]
      exact addDateFilter_unknown h1 h2 h3 h4 _ _ _
  · intro s pre suf sf hnn h hne
    have hdel := parseDateFilter_null_marker hnn h hne sf
    refine ⟨hdel, ?_, ?_, ?_⟩
    · rw [hdel, parseDateFilter_null_marker (hbr2nn hnn h) (hbr2 h) hne sf]
    · intro hfield
      rw [hdel]
      exact addDateFilter_known hfield _ _ _
    · intro h1 h2 h3 h4
      rw [hdel]
      exact addDateFilter_unknown h1 h2 h3 h4 _ _ _
  · rfl
  · rfl
  · rfl

/-- Witness for C9 at the concrete input with trailing text after the
marker. -/
theorem c9_witness :
    parsePropertyFilter "name:IS NOT NULLxyz" =
      Except.ok { propertyName := String.mk "name".data,
                  comparisonOperator := ComparisonOperator.isNotNull,
                  propertyValue := GoValue.null } ∧
    parsePropertyFilter "name:IS NOT NULLxyz" =
      parsePropertyFilter (String.mk "name".data ++ ":IS NOT NULL") :=
  c9_marker_discard.1 "name:IS NOT NULLxyz" "name".data "xyz".data (by decide) (by decide)

/-- C10: parseDateFilters processes its strings in order and returns at the
first failure; the singleton OR-groups appended by the earlier successful
strings remain in the filter set, the failing call itself appends nothing,
and the strings after the failure are never processed. -/
theorem c10_sequential_failure :
    (∀ (f : String) (sf sf2 : SearchFilters) (e : String),
       parseDateFilter f sf = (sf2, some e) → sf2 = sf) ∧
    (∀ (pre rest : List String) (sf sf' : SearchFilters),
       parseDateFilters pre sf = (sf', none) →
       ∀ (f : String) (e : String) (sf2 : SearchFilters),
         parseDateFilter f sf' = (sf2, some e) →
         parseDateFilters (pre ++ f :: rest) sf = (sf', some e)) ∧
    parseDateFilters ["created_at:>:2024-01-01", "bogus"] {} =
      (sfWitness,
       some ("invalid date filter format: " ++ goQuote "bogus" ++
         " (expected field:operator:date)")) := by
  refine ⟨?_, ?_, rfl⟩
  · intro f sf sf2 e h
    exact parseDateFilter_error h
  · intro pre
    induction pre with
    | nil =>
      intro rest sf sf' h f e sf2 h2
      simp only [parseDateFilters] at h
      simp only [Prod.mk.injEq] at h
      rw [← h.1] at h2
      have hsf2 : sf2 = sf := parseDateFilter_error h2
      show parseDateFilters (f :: rest) sf = (sf', some e)
      simp only [parseDateFilters]
      rw [h2]
      show (sf2, some e) = (sf', some e)
      rw [hsf2, h.1]
    | cons p pre' ih =>
      intro rest sf sf' h f e sf2 h2
      simp only [parseDateFilters] at h
      revert h
      rcases hp : parseDateFilter p sf with ⟨sfm, em⟩
      cases em with
      | some e2 =>
        intro h
        exact absurd h (by simp)
      | none =>
        intro h
        show parseDateFilters ((p :: pre') ++ f :: rest) sf = (sf', some e)
        simp only [List.cons_append, parseDateFilters]
        rw [hp]
        exact ih rest sfm sf' h f e sf2 h2

/-- Witness for C10: one successful string, then a failing one, from the empty
set. -/
theorem c10_witness :
    parseDateFilters (["created_at:>:2024-01-01"] ++ "bogus" :: []) {} =
      (sfWitness,
       some ("invalid date filter format: " ++ goQuote "bogus" ++
         " (expected field:operator:date)")) :=
  c10_sequential_failure.2.1 ["created_at:>:2024-01-01"] [] {} sfWitness rfl "bogus"
    ("invalid date filter format: " ++ goQuote "bogus" ++ " (expected field:operator:date)")
    sfWitness rfl

/-- While every tick up to the n-th stays before the deadline and observes a
non-terminal status, the wait loop keeps polling. -/
theorem waitForTaskAux_skip (fetch : Nat → Except String TaskView) (taskID : String)
    (timeout pollInterval : Nat) :
    ∀ (n fuel k : Nat),
      (∀ j, k ≤ j → j < k + n → j * pollInterval < timeout ∧
        ∃ t, fetch j = Except.ok t ∧ statusOf t ≠ "completed" ∧ statusOf t ≠ "failed") →
      waitForTaskAux fetch taskID timeout pollInterval (fuel + n) k =
        waitForTaskAux fetch taskID timeout pollInterval fuel (k + n) := by
  intro n
  induction n with
  | zero => intro fuel k _; rfl
  | succ n ih =>
    intro fuel k h
    obtain ⟨hlt, t, hft, hc, hf⟩ := h k (Nat.le_refl k) (by omega)
    have hsucc : fuel + (n + 1) = (fuel + n) + 1 := by omega
    rw [hsucc]
    show waitForTaskAux fetch taskID timeout pollInterval ((fuel + n) + 1) k = _
    simp only [waitForTaskAux]
    rw [if_neg (by omega), hft]
    simp only [hc, hf, if_neg, if_false]
    have h' : ∀ j, k + 1 ≤ j → j < k + 1 + n → j * pollInterval < timeout ∧
        ∃ t, fetch j = Except.ok t ∧ statusOf t ≠ "completed" ∧ statusOf t ≠ "failed" := by
      intro j hj1 hj2
      exact h j (by omega) (by omega)
    rw [ih fuel (k + 1) h']
    have : k + 1 + n = k + (n + 1) := by omega
    rw [this]

/-- If every tick strictly before the deadline observes a non-terminal status,
the loop ends in the timeout error. -/
theorem waitForTaskAux_timeout (fetch : Nat → Except String TaskView) (taskID : String)
    (timeout pollInterval : Nat)
    (h : ∀ k, 1 ≤ k → k * pollInterval < timeout →
      ∃ t, fetch k = Except.ok t ∧ statusOf t ≠ "completed" ∧ statusOf t ≠ "failed") :
    ∀ fuel k, 1 ≤ k →
      waitForTaskAux fetch taskID timeout pollInterval fuel k =
        Except.error ("timeout waiting for task " ++ taskID) := by
  intro fuel
  induction fuel with
  | zero => intro k _; rfl
  | succ fuel ih =>
    intro k hk
    simp only [waitForTaskAux]
    by_cases hd : timeout ≤ k * pollInterval
    · rw [if_pos hd]
    · rw [if_neg hd]
      obtain ⟨t, hft, hc, hf⟩ := h k hk (by omega)
      rw [hft]
      simp only [hc, hf, if_neg, if_false]
      exact ih (k + 1) (by omega)

/-- The loop result only depends on the fetches strictly before the
deadline. -/
theorem waitForTaskAux_congr (fetch1 fetch2 : Nat → Except String TaskView) (taskID : String)
    (timeout pollInterval : Nat)
    (h : ∀ k, 1 ≤ k → k * pollInterval < timeout → fetch1 k = fetch2 k) :
    ∀ fuel k, 1 ≤ k →
      waitForTaskAux fetch1 taskID timeout pollInterval fuel k =
        waitForTaskAux fetch2 taskID timeout pollInterval fuel k := by
  intro fuel
  induction fuel with
  | zero => intro k _; rfl
  | succ fuel ih =>
    intro k hk
    simp only [waitForTaskAux]
    by_cases hd : timeout ≤ k * pollInterval
    · rw [if_pos hd, if_pos hd]
    · rw [if_neg hd, if_neg hd, h k hk (by omega)]
      cases fetch2 k with
      | error e => rfl
      | ok t =>
        by_cases hc : statusOf t = "completed"
        · simp [hc]
        · by_cases hf : statusOf t = "failed"
          · simp [hc, hf]
          · simp [hc, hf, ih (k + 1) (by omega)]

/-- C4: on every poll the wait loop returns success immediately on status
completed; on status failed it returns the failure with the task's error
message, or the generic unknown-error text when none is present; and any other
status continues the loop into the next tick. -/
theorem c4_poll_step (fetch : Nat → Except String TaskView) (taskID : String)
    (timeout pollInterval n : Nat) (hpI : 0 < pollInterval)
    (hpre : ∀ j, 1 ≤ j → j ≤ n → j * pollInterval < timeout ∧
       ∃ t, fetch j = Except.ok t ∧ statusOf t ≠ "completed" ∧ statusOf t ≠ "failed")
    (hn1 : (n + 1) * pollInterval < timeout) :
    (∀ t, fetch (n + 1) = Except.ok t → statusOf t = "completed" →
       waitForTask fetch taskID timeout pollInterval = Except.ok ()) ∧
    (∀ t m, fetch (n + 1) = Except.ok t → statusOf t = "failed" → t.errorMessage = some m →
       waitForTask fetch taskID timeout pollInterval =
         Except.error ("task " ++ taskID ++ " failed: " ++ m)) ∧
    (∀ t, fetch (n + 1) = Except.ok t → statusOf t = "failed" → t.errorMessage = none →
       waitForTask fetch taskID timeout pollInterval =
         Except.error ("task " ++ taskID ++ " failed: " ++ "unknown error")) ∧
    (∀ t, fetch (n + 1) = Except.ok t → statusOf t ≠ "completed" → statusOf t ≠ "failed" →
       waitForTask fetch taskID timeout pollInterval =
         waitForTaskAux fetch taskID timeout pollInterval (timeout - (n + 1)) (n + 2)) := by
  have hle : n + 1 ≤ (n + 1) * pollInterval := Nat.le_mul_of_pos_right _ hpI
  have hnt : n + 1 < timeout := by omega
  have hunf : waitForTask fetch taskID timeout pollInterval =
      waitForTaskAux fetch taskID timeout pollInterval ((timeout - n) + n) 1 := by
    unfold waitForTask
    congr 1
    omega
  have hskip := waitForTaskAux_skip fetch taskID timeout pollInterval n (timeout - n) 1
    (by
      intro j hj1 hj2
      exact hpre j hj1 (by omega))
  have hone : 1 + n = n + 1 := by omega
  have hfuel : timeout - n = (timeout - (n + 1)) + 1 := by omega
  have hstep : waitForTask fetch taskID timeout pollInterval =
      waitForTaskAux fetch taskID timeout pollInterval ((timeout - (n + 1)) + 1) (n + 1) := by
    rw [hunf, hskip, hone, hfuel]
  refine ⟨?_, ?_, ?_, ?_⟩
  · intro t hft hcomp
    rw [hstep]
    simp only [waitForTaskAux]
    rw [if_neg (by omega), hft]
    simp [hcomp]
  · intro t m hft hfail hmsg
    rw [hstep]
    simp only [waitForTaskAux]
    rw [if_neg (by omega), hft]
    simp [hfail, hmsg]
  · intro t hft hfail hmsg
    rw [hstep]
    simp only [waitForTaskAux]
    rw [if_neg (by omega), hft]
    simp [hfail, hmsg]
  · intro t hft hc hf
    rw [hstep]
    simp only [waitForTaskAux]
    rw [if_neg (by omega), hft]
    simp only [hc, hf, if_neg, if_false]

/-- A concrete status oracle for the C4 witness: processing on the first tick,
then a failure carrying the message boom. -/
def fetchBoom (k : Nat) : Except String TaskView :=
  if k = 1 then Except.ok { status := some "processing", errorMessage := none }
  else Except.ok { status := some "failed", errorMessage := some "boom" }

/-- Witness for C4: with the boom oracle, one non-terminal poll and then a
failed poll produce the failure message containing boom. -/
theorem c4_witness :
    waitForTask fetchBoom "task-1" 10 1 =
      Except.error ("task " ++ "task-1" ++ " failed: " ++ "boom") :=
  (c4_poll_step fetchBoom "task-1" 10 1 1 (by decide)
      (fun j hj1 hj2 => by
        have hj : j = 1 := Nat.le_antisymm hj2 hj1
        subst hj
        exact ⟨by decide, { status := some "processing", errorMessage := none }, rfl,
          by decide, by decide⟩)
      (by decide)).2.1
    { status := some "failed", errorMessage := some "boom" } "boom" rfl rfl rfl

/-- C5: if every tick strictly before the deadline observes a non-terminal
status, waitForTask returns the timeout failure naming the task id, never a
success; no fetch at or past the deadline influences the result (the result
only depends on the fetches strictly before the deadline); and in particular
an always-pending oracle with a timeout shorter than 3 poll intervals yields
the timeout failure. -/
theorem c5_timeout_failure :
    (∀ (fetch : Nat → Except String TaskView) (taskID : String) (timeout pollInterval : Nat),
       0 < pollInterval →
       (∀ k, 1 ≤ k → k * pollInterval < timeout →
         ∃ t, fetch k = Except.ok t ∧ statusOf t ≠ "completed" ∧ statusOf t ≠ "failed") →
       waitForTask fetch taskID timeout pollInterval =
         Except.error ("timeout waiting for task " ++ taskID)) ∧
    (∀ (fetch1 fetch2 : Nat → Except String TaskView) (taskID : String)
       (timeout pollInterval : Nat), 0 < pollInterval →
       (∀ k, 1 ≤ k → k * pollInterval < timeout → fetch1 k = fetch2 k) →
       waitForTask fetch1 taskID timeout pollInterval =
         waitForTask fetch2 taskID timeout pollInterval) ∧
    (∀ (taskID : String) (timeout pollInterval : Nat), 0 < pollInterval →
       timeout < 3 * pollInterval →
       waitForTask (fun _ => Except.ok { status := some "pending", errorMessage := none })
         taskID timeout pollInterval =
         Except.error ("timeout waiting for task " ++ taskID)) := by
  refine ⟨?_, ?_, ?_⟩
  · intro fetch taskID timeout pollInterval _ h
    exact waitForTaskAux_timeout fetch taskID timeout pollInterval h timeout 1 (Nat.le_refl 1)
  · intro fetch1 fetch2 taskID timeout pollInterval _ h
    exact waitForTaskAux_congr fetch1 fetch2 taskID timeout pollInterval h timeout 1
      (Nat.le_refl 1)
  · intro taskID timeout pollInterval hpI _
    apply waitForTaskAux_timeout
    intro k _ _
    exact ⟨{ status := some "pending", errorMessage := none }, rfl, by decide, by decide⟩
    exact Nat.le_refl 1

/-- Witness for C5: an always-pending oracle, a poll interval of 2 and a
timeout of 3 (shorter than 3 intervals) time out. -/
theorem c5_witness :
    waitForTask (fun _ => Except.ok { status := some "pending", errorMessage := none })
      "task-2" 3 2 = Except.error ("timeout waiting for task " ++ "task-2") :=
  c5_timeout_failure.2.2 "task-2" 3 2 (by decide) (by decide)

/-- C8: the first fetch can only happen on the first ticker tick, one full
poll interval after the start; with a timeout strictly smaller than the poll
interval the wait times out with zero fetches issued, whatever the oracle
reports, even an oracle that always reports completed; and when the first tick
does fire before the deadline, a completed status on it yields success. -/
theorem c8_first_tick :
    (∀ (fetch : Nat → Except String TaskView) (taskID : String) (timeout pollInterval : Nat),
       0 < pollInterval → timeout < pollInterval →
       waitForTask fetch taskID timeout pollInterval =
         Except.error ("timeout waiting for task " ++ taskID)) ∧
    (∀ (taskID : String) (timeout pollInterval : Nat), 0 < pollInterval →
       timeout < pollInterval →
       waitForTask (fun _ => Except.ok { status := some "completed", errorMessage := none })
         taskID timeout pollInterval =
         Except.error ("timeout waiting for task " ++ taskID)) ∧
    (∀ (fetch : Nat → Except String TaskView) (taskID : String) (timeout pollInterval : Nat)
       (t : TaskView), 0 < pollInterval → pollInterval < timeout →
       fetch 1 = Except.ok t → statusOf t = "completed" →
       waitForTask fetch taskID timeout pollInterval = Except.ok ()) := by
  have hpart1 : ∀ (fetch : Nat → Except String TaskView) (taskID : String)
      (timeout pollInterval : Nat), 0 < pollInterval → timeout < pollInterval →
      waitForTask fetch taskID timeout pollInterval =
        Except.error ("timeout waiting for task " ++ taskID) := by
    intro fetch taskID timeout pollInterval _ hlt
    unfold waitForTask
    cases timeout with
    | zero => rfl
    | succ m =>
      simp only [waitForTaskAux]
      rw [if_pos (by omega)]
  refine ⟨hpart1, ?_, ?_⟩
  · intro taskID timeout pollInterval hpI hlt
    exact hpart1 _ taskID timeout pollInterval hpI hlt
  · intro fetch taskID timeout pollInterval t hpI hlt hft hcomp
    unfold waitForTask
    cases timeout with
    | zero => omega
    | succ m =>
      simp only [waitForTaskAux]
      rw [if_neg (by omega), hft]
      simp [hcomp]

/-- Witness for C8: timeout 1, poll interval 2, an oracle that is always
completed; the wait still times out without fetching. -/
theorem c8_witness :
    waitForTask (fun _ => Except.ok { status := some "completed", errorMessage := none })
      "task-3" 1 2 = Except.error ("timeout waiting for task " ++ "task-3") :=
  c8_first_tick.1 (fun _ => Except.ok { status := some "completed", errorMessage := none })
    "task-3" 1 2 (by decide) (by decide)
